import Mathlib

/-!
Verification of the synapse-core transaction ingestion service.

The definitions below are a shallow embedding of the Rust sources:
  * `src/handlers/webhook.rs` — callback payload validation and ingestion
  * `src/config.rs`           — startup configuration parsing
  * `src/main.rs`             — router construction and startup sequence
Strings are Lean `String`s; Rust's byte-oriented `str::len` is modelled by
`byteLen` (UTF-8 byte count); `BigDecimal::from_str` (bigdecimal crate) is
modelled by `parseBigDecimal`; database state is an explicit list of rows
threaded through the handlers.
-/

namespace SynapseCore

/-- UTF-8 encoded size in bytes of one character, as Rust counts it. -/
def charUtf8Size (c : Char) : Nat :=
  if c.val ≤ 0x7F then 1
  else if c.val ≤ 0x7FF then 2
  else if c.val ≤ 0xFFFF then 3
  else 4

/-- Rust `str::len`: the number of UTF-8 bytes of the string. -/
def byteLen (s : String) : Nat :=
  (s.data.map charUtf8Size).sum

/-- Rust `str::starts_with('G')`: the first character is `G`. -/
def startsWithG (s : String) : Bool :=
  match s.data with
  | [] => false
  | c :: _ => c = 'G'

/-- One decimal digit, `'0'..'9'`. -/
def digitVal (c : Char) : Option Nat :=
  if '0' ≤ c ∧ c ≤ '9' then some (c.toNat - 48) else none

/-- Parse a nonempty string of decimal digits; `none` on empty input or a
non-digit character.  Models `BigInt` digit parsing. -/
def parseDigits : List Char → Option Nat
  | [] => none
  | cs => go cs 0
where
  go : List Char → Nat → Option Nat
    | [], acc => some acc
    | c :: rest, acc =>
      match digitVal c with
      | none => none
      | some d => go rest (acc * 10 + d)

/-- Parse an optionally signed decimal integer (`+`/`-` then nonempty
digits), as `num_bigint::BigInt::from_str` does. -/
def parseSignedInt (cs : List Char) : Option Int :=
  match cs with
  | '+' :: rest => (parseDigits rest).map Int.ofNat
  | '-' :: rest => (parseDigits rest).map fun n => -(n : Int)
  | _ => (parseDigits cs).map Int.ofNat

/-- An arbitrary-precision decimal `mantissa * 10 ^ (-scale)`, the
representation used by the bigdecimal crate. -/
structure BigDec where
  mantissa : Int
  scale : Int
deriving DecidableEq, Repr

/-- Split a character list at the first occurrence of `e`/`E`; the second
component is the exponent text when a separator is present. -/
def splitAtExp : List Char → List Char × Option (List Char)
  | [] => ([], none)
  | c :: rest =>
    if c = 'e' ∨ c = 'E' then ([], some rest)
    else
      let (b, e) := splitAtExp rest
      (c :: b, e)

/-- Split a character list at the first `.`, dropping the dot; the second
component counts the digits after the dot (the decimal offset). -/
def splitAtDot : List Char → List Char × Nat
  | [] => ([], 0)
  | c :: rest =>
    if c = '.' then (rest, rest.length)
    else
      let (d, off) := splitAtDot rest
      (c :: d, off)

/-- `BigDecimal::from_str` of the bigdecimal crate: an optional exponent
part after the first `e`/`E`, an optional decimal point in the base part,
all digits concatenated and parsed as a signed integer; fails on an empty
base part, an unparsable exponent, or non-digit characters. -/
def parseBigDecimal (s : String) : Option BigDec :=
  let (basePart, expPart) := splitAtExp s.data
  let exponent? : Option Int :=
    match expPart with
    | none => some 0
    | some es => parseSignedInt es
  match exponent? with
  | none => none
  | some exponent =>
    if basePart.isEmpty then none
    else
      let (digits, off) := splitAtDot basePart
      match parseSignedInt digits with
      | none => none
      | some m => some ⟨m, (off : Int) - exponent⟩

/-- `payload.id` is the anchor's external id. From `CallbackPayload` in
`src/handlers/webhook.rs`. -/
structure CallbackPayload where
  id : String
  amount_in : String
  stellar_account : String
  asset_code : String
  callback_type : Option String
  status : Option String
deriving DecidableEq, Repr

/-- `CallbackResponse` in `src/handlers/webhook.rs`; the Uuid is modelled
as a `Nat`. -/
structure CallbackResponse where
  transaction_id : Nat
  status : String
deriving DecidableEq, Repr

/-- `AppError` variants reached from the ingestion handler (`crate::error`).
`Validation` maps to a 4xx response, `Database` to a 5xx response. -/
inductive AppError where
  | Validation (msg : String)
  | Database (msg : String)
deriving DecidableEq, Repr

/-- `validate_payload` from `src/handlers/webhook.rs`: amount parses and is
positive, stellar account is 56 bytes and starts with `G`, asset code is
nonempty and at most 12 bytes. -/
def validate_payload (payload : CallbackPayload) : Except AppError Unit :=
  match parseBigDecimal payload.amount_in with
  | none => .error (.Validation "Invalid amount format")
  | some amount =>
    if amount.mantissa ≤ 0 then
      .error (.Validation "Amount must be greater than 0")
    else if byteLen payload.stellar_account ≠ 56 then
      .error (.Validation "Invalid Stellar account address length, must be 56 characters")
    else if ¬ startsWithG payload.stellar_account then
      .error (.Validation "Stellar account must start with G")
    else if payload.asset_code = "" ∨ byteLen payload.asset_code > 12 then
      .error (.Validation "Asset code must be between 1 and 12 characters")
    else
      .ok ()

/-- A stored row of the `transactions` relation; timestamps are `Nat`
ticks, the Uuid primary key a `Nat`. -/
structure StoredTransaction where
  id : Nat
  stellar_account : String
  amount : BigDec
  asset_code : String
  status : String
  created_at : Nat
  updated_at : Nat
  anchor_transaction_id : Option String
  callback_type : Option String
  callback_status : Option String
deriving DecidableEq, Repr

/-- Modelled from the spec: `db::models::Transaction::new` is not under
`src/`; per the spec a new transaction is created with `status = Pending`
and both timestamps set at creation, the callback payload's optional
status recorded separately as `callback_status`. -/
def Transaction.new (freshId now : Nat) (stellar_account : String)
    (amount : BigDec) (asset_code : String)
    (anchor_transaction_id : Option String)
    (callback_type : Option String) (callback_status : Option String) :
    StoredTransaction :=
  { id := freshId
    stellar_account := stellar_account
    amount := amount
    asset_code := asset_code
    status := "pending"
    created_at := now
    updated_at := now
    anchor_transaction_id := anchor_transaction_id
    callback_type := callback_type
    callback_status := callback_status }

/-- The `transactions` table: a list of rows. -/
abbrev Store := List StoredTransaction

/-- Whether a row carries the given anchor (external) id. -/
def hasAnchorId (a : String) (r : StoredTransaction) : Bool :=
  r.anchor_transaction_id = some a

/-- Modelled from the spec: the `transactions` relation (its migration is
not under `src/`) enforces uniqueness of `anchor_transaction_id`; an
`INSERT ... RETURNING id` either stores the row and returns its id or
fails with a constraint violation, which `handle_callback` surfaces via
`map_err(AppError::Database)`. -/
def insertTransaction (st : Store) (t : StoredTransaction) :
    Except AppError (Nat × Store) :=
  match t.anchor_transaction_id with
  | some a =>
    if st.any (hasAnchorId a) then
      .error (.Database "duplicate key value violates unique constraint on anchor_transaction_id")
    else
      .ok (t.id, st ++ [t])
  | none => .ok (t.id, st ++ [t])

/-- `handle_callback` from `src/handlers/webhook.rs`: validate, re-parse
the amount, build the transaction via `Transaction::new`, insert it
unconditionally, and respond `201` with the returned id and the literal
status string `"pending"`.  The database pool is the explicit `st`; the
generated Uuid and current time are the explicit `freshId` and `now`.
The first component of the result is the store after the call. -/
def handle_callback (st : Store) (now freshId : Nat)
    (payload : CallbackPayload) :
    Store × Except AppError (Nat × CallbackResponse) :=
  match validate_payload payload with
  | .error e => (st, .error e)
  | .ok _ =>
    match parseBigDecimal payload.amount_in with
    | none => (st, .error (.Validation "Invalid amount format"))
    | some amount =>
      let transaction := Transaction.new freshId now payload.stellar_account
        amount payload.asset_code (some payload.id) payload.callback_type
        payload.status
      match insertTransaction st transaction with
      | .error e => (st, .error e)
      | .ok (rid, st2) => (st2, .ok (201, ⟨rid, "pending"⟩))

/-- `WebhookPayload` for the legacy handler in `src/handlers/webhook.rs`. -/
structure WebhookPayload where
  id : String
  anchor_transaction_id : String
deriving DecidableEq, Repr

/-- `WebhookResponse` in `src/handlers/webhook.rs`. -/
structure WebhookResponse where
  success : Bool
  message : String
deriving DecidableEq, Repr

/-- `handle_webhook` from `src/handlers/webhook.rs`: logs and returns
`200 OK` with a success message; the application state (here the store)
is received but never touched. -/
def handle_webhook (st : Store) (payload : WebhookPayload) :
    Store × Nat × WebhookResponse :=
  (st, 200, ⟨true, "Webhook " ++ payload.id ++ " processed successfully"⟩)

/-- HTTP methods used by the router in `src/main.rs`. -/
inductive Method where
  | get
  | put
deriving DecidableEq, Repr

/-- The routes registered on the axum `Router` in `src/main.rs`
(`/health`, `GET /admin/flags`, `PUT /admin/flags/:name`), each with the
name of its handler. -/
def appRoutes : List (Method × String × String) :=
  [ (.get, "/health", "handlers.health")
  , (.get, "/admin/flags", "handlers.admin.get_flags")
  , (.put, "/admin/flags/:name", "handlers.admin.update_flag") ]

/-- A CIDR network as parsed by the ipnet crate: address octets and a mask
length.  `ipNetFromStr` models `IpNet::from_str` for the IPv4 form
`a.b.c.d/m` (the IPv6 form is omitted; every property proved below about
`parse_allowed_ips` is independent of which entries this parser accepts). -/
structure IpNet where
  octets : List Nat
  maskLen : Nat
deriving DecidableEq, Repr

/-- Rust `str::split(sep)` on a character list: the separator-delimited
groups; an input with no separator is one group, so the result is never
empty. -/
def splitSep (sep : Char) : List Char → List (List Char)
  | [] => [[]]
  | c :: rest =>
    if c = sep then
      [] :: splitSep sep rest
    else
      match splitSep sep rest with
      | [] => [[c]]
      | g :: gs => (c :: g) :: gs

/-- One dotted-decimal octet as `std` parses it: 1–3 digits, no leading
zero unless the octet is exactly `0`, value at most 255. -/
def parseOctet (cs : List Char) : Option Nat :=
  match cs with
  | [] => none
  | ['0'] => some 0
  | '0' :: _ :: _ => none
  | _ =>
    match parseDigits cs with
    | none => none
    | some n => if n ≤ 255 then some n else none

/-- Mask length for an IPv4 network: digits only, at most 32, and `std`
integer parsing forbids a leading zero here as well. -/
def parseMask (cs : List Char) : Option Nat :=
  match cs with
  | [] => none
  | ['0'] => some 0
  | '0' :: _ :: _ => none
  | _ =>
    match parseDigits cs with
    | none => none
    | some n => if n ≤ 32 then some n else none

/-- `IpNet::from_str` (ipnet crate), IPv4 case: `a.b.c.d/m`. -/
def ipNetFromStr (s : String) : Option IpNet :=
  match splitSep '/' s.data with
  | [addr, mask] =>
    match (splitSep '.' addr).mapM parseOctet, parseMask mask with
    | some [a, b, c, d], some m => some ⟨[a, b, c, d], m⟩
    | _, _ => none
  | _ => none

/-- `AllowedIps` from `src/config.rs`. -/
inductive AllowedIps where
  | Any
  | Cidrs (nets : List IpNet)
deriving DecidableEq, Repr

/-- `LogFormat` from `src/config.rs`. -/
inductive LogFormat where
  | Text
  | Json
deriving DecidableEq, Repr

/-- Rust `char::to_ascii_lowercase` mapped over a string. -/
def asciiLower (s : String) : String :=
  ⟨s.data.map fun c => if 'A' ≤ c ∧ c ≤ 'Z' then Char.ofNat (c.toNat + 32) else c⟩

/-- Rust `str::trim` on a character list: drop whitespace from both ends
(whitespace modelled by `Char.isWhitespace`). -/
def trimChars (cs : List Char) : List Char :=
  ((cs.dropWhile Char.isWhitespace).reverse.dropWhile Char.isWhitespace).reverse

/-- Rust `str::trim`. -/
def rustTrim (s : String) : String :=
  ⟨trimChars s.data⟩

/-- `parse_allowed_ips` from `src/config.rs`: trim, accept `*` as `Any`,
otherwise split on commas, trim each entry, drop empty entries, parse each
remaining entry as a CIDR (first failure wins), and reject an empty
result list. -/
def parse_allowed_ips (raw : String) : Except String AllowedIps :=
  if rustTrim raw = "*" then
    .ok .Any
  else
    match (((splitSep ',' (rustTrim raw).data).map trimChars).filter
        (fun e => ¬ e.isEmpty)).mapM (fun e => ipNetFromStr ⟨e⟩) with
    | none => .error "invalid IP network address"
    | some cidrs =>
      if cidrs.isEmpty then
        .error "ALLOWED_IPS must be a star or a comma-separated list of CIDRs"
      else
        .ok (.Cidrs cidrs)

/-- `parse_log_format` from `src/config.rs`: trim, ASCII-lowercase, accept
exactly `text` or `json`. -/
def parse_log_format (raw : String) : Except String LogFormat :=
  match asciiLower (rustTrim raw) with
  | "text" => .ok .Text
  | "json" => .ok .Json
  | _ => .error "LOG_FORMAT must be text or json"

/-- Rust `u16::from_str`: an optional leading `+`, then nonempty digits,
value within `u16` range. -/
def parseU16 (s : String) : Option Nat :=
  let digits? :=
    match s.data with
    | '+' :: rest => parseDigits rest
    | cs => parseDigits cs
  match digits? with
  | none => none
  | some n => if n ≤ 65535 then some n else none

/-- `Config` from `src/config.rs` (the parsed `allowed_ips` is validated
but not stored, exactly as in the source). -/
structure Config where
  server_port : Nat
  database_url : String
  stellar_horizon_url : String
  redis_url : String
  log_format : LogFormat
deriving DecidableEq, Repr

/-- The process environment: variable name to optional value. -/
abbrev Env : Type := String → Option String

/-- `env::var` with `unwrap_or_else` defaulting. -/
def envOr (env : Env) (name dflt : String) : String :=
  (env name).getD dflt

/-- `env::var` with `?`: a missing variable is an error. -/
def envReq (env : Env) (name : String) : Except String String :=
  match env name with
  | some v => .ok v
  | none => .error ("environment variable not found: " ++ name)

/-- `Config::from_env` from `src/config.rs`, with each `?` of the source
an explicit early return, in source evaluation order: parse `ALLOWED_IPS`
(default `*`, result validated then dropped), parse `LOG_FORMAT` (default
`text`), then build the record — `SERVER_PORT` (default `3000`) parsed as
`u16`, and `DATABASE_URL`, `STELLAR_HORIZON_URL`, `REDIS_URL` required. -/
def Config.from_env (env : Env) : Except String Config :=
  match parse_allowed_ips (envOr env "ALLOWED_IPS" "*") with
  | .error e => .error e
  | .ok _allowed =>
    match parse_log_format (envOr env "LOG_FORMAT" "text") with
    | .error e => .error e
    | .ok log_format =>
      match parseU16 (envOr env "SERVER_PORT" "3000") with
      | none => .error "invalid digit found in string"
      | some server_port =>
        match envReq env "DATABASE_URL" with
        | .error e => .error e
        | .ok database_url =>
          match envReq env "STELLAR_HORIZON_URL" with
          | .error e => .error e
          | .ok stellar_horizon_url =>
            match envReq env "REDIS_URL" with
            | .error e => .error e
            | .ok redis_url =>
              .ok { server_port, database_url, stellar_horizon_url,
                    redis_url, log_format }

/-- Externally observable startup events of `main` in `src/main.rs`. -/
inductive StartupEvent where
  | configLoaded
  | listenerBound (port : Nat)
  | served
deriving DecidableEq, Repr

/-- The startup sequence of `main` in `src/main.rs`: load config (abort on
error), then pool creation, migrations and feature-flag refresh (fallible
collaborators outside `src/`, abstracted as the success flags), and only
then bind the listener on the configured port and serve.  The result is
the list of observable events in order. -/
def mainStartup (env : Env) (poolOk migOk flagsOk bindOk : Bool) :
    List StartupEvent :=
  match Config.from_env env with
  | .error _ => []
  | .ok cfg =>
    if poolOk && migOk && flagsOk then
      .configLoaded :: .listenerBound cfg.server_port ::
        (if bindOk then [.served] else [])
    else
      [.configLoaded]

/-! ### Settlement model

The Settlement Engine and the SettlementBatch relation are not under
`src/`; the following state machine is modelled from the spec (§4.3, §5):
ingestion appends `Pending` transactions, and one settlement tick
atomically marks a chosen set of pending transactions `Settled`, a
disjoint set `Failed`, and commits the batch referencing exactly the
newly settled ids in the same atomic unit.  Externally observable states
are the reachable states of this machine. -/

/-- Transaction status: `Pending → Settled | Failed`, both terminal. -/
inductive TxStatus where
  | Pending
  | Settled
  | Failed
deriving DecidableEq, Repr

/-- Modelled from the spec: the per-transaction state the settlement
invariant speaks about. -/
structure CoreTx where
  id : Nat
  status : TxStatus
deriving DecidableEq, Repr

/-- Modelled from the spec: a SettlementBatch record — its id and the set
of transaction ids it settled. -/
structure SettlementBatch where
  id : Nat
  transaction_ids : List Nat
deriving DecidableEq, Repr

/-- Modelled from the spec: the externally observable state — the
transactions relation and the settlement_batches relation. -/
structure CoreState where
  txs : List CoreTx
  batches : List SettlementBatch
deriving DecidableEq, Repr

/-- Whether a batch references the given transaction id. -/
def inBatch (i : Nat) (b : SettlementBatch) : Bool :=
  decide (i ∈ b.transaction_ids)

/-- A settlement tick's per-transaction outcome applied to one row:
ids chosen for settlement become `Settled`, ids chosen for failure become
`Failed`, the rest are untouched. -/
def applyOutcome (settledIds failedIds : List Nat) (t : CoreTx) : CoreTx :=
  if t.id ∈ settledIds then { t with status := .Settled }
  else if t.id ∈ failedIds then { t with status := .Failed }
  else t

/-- Modelled from the spec: one atomic transition of the system.
`ingest` is the Ingestion Gateway persisting a fresh `Pending` row;
`settle` is one Settlement Engine tick committing, in one atomic unit,
every status change of the tick together with the batch containing
exactly the ids transitioned to `Settled` (no batch row when the tick
settled nothing). -/
inductive CoreStep : CoreState → CoreState → Prop where
  | ingest (s : CoreState) (i : Nat)
      (hfresh : ∀ t ∈ s.txs, t.id ≠ i) :
      CoreStep s ⟨s.txs ++ [⟨i, .Pending⟩], s.batches⟩
  | settle (s : CoreState) (settledIds failedIds : List Nat) (bid : Nat)
      (hS : ∀ i ∈ settledIds, ⟨i, .Pending⟩ ∈ s.txs)
      (hF : ∀ i ∈ failedIds, ⟨i, .Pending⟩ ∈ s.txs)
      (hdisj : ∀ i ∈ settledIds, i ∉ failedIds) :
      CoreStep s
        ⟨s.txs.map (applyOutcome settledIds failedIds),
         if settledIds.isEmpty then s.batches
         else s.batches ++ [⟨bid, settledIds⟩]⟩

/-- The empty initial state: no transactions, no batches. -/
def initState : CoreState := ⟨[], []⟩

/-- Externally observable states: reachable from the initial state by
atomic steps. -/
def ReachableState (s : CoreState) : Prop :=
  Relation.ReflTransGen CoreStep initState s

/-- The settlement invariant: transaction ids are unique, a transaction is
referenced by exactly one batch when `Settled` and by none otherwise, and
every id a batch references belongs to a `Settled` transaction. -/
def SettlementInv (s : CoreState) : Prop :=
  (s.txs.map CoreTx.id).Nodup ∧
  (∀ t ∈ s.txs,
    s.batches.countP (inBatch t.id) = if t.status = .Settled then 1 else 0) ∧
  (∀ b ∈ s.batches, ∀ i ∈ b.transaction_ids, CoreTx.mk i .Settled ∈ s.txs)

lemma applyOutcome_id (settledIds failedIds : List Nat) (t : CoreTx) :
    (applyOutcome settledIds failedIds t).id = t.id := by
  unfold applyOutcome
  split <;> [rfl; split <;> rfl]

/-- With unique ids, two rows sharing an id share a status. -/
lemma status_unique {txs : List CoreTx} (hnd : (txs.map CoreTx.id).Nodup)
    {i : Nat} {a b : TxStatus}
    (ha : CoreTx.mk i a ∈ txs) (hb : CoreTx.mk i b ∈ txs) : a = b := by
  induction txs with
  | nil => cases ha
  | cons x rest ih =>
    simp only [List.map_cons, List.nodup_cons] at hnd
    rcases List.mem_cons.mp ha with hxa | hra
    · rcases List.mem_cons.mp hb with hxb | hrb
      · rw [← hxa] at hxb
        exact (CoreTx.mk.injEq .. ▸ hxb).2.symm
      · exfalso
        apply hnd.1
        rw [← hxa]
        exact List.mem_map.mpr ⟨_, hrb, rfl⟩
    · rcases List.mem_cons.mp hb with hxb | hrb
      · exfalso
        apply hnd.1
        rw [← hxb]
        exact List.mem_map.mpr ⟨_, hra, rfl⟩
      · exact ih hnd.2 hra hrb

lemma settlementInv_init : SettlementInv initState := by
  refine ⟨List.nodup_nil, ?_, ?_⟩ <;> intro t ht <;> cases ht

/-- Each atomic step preserves the settlement invariant. -/
lemma settlementInv_step {s s' : CoreState} (h : CoreStep s s')
    (hinv : SettlementInv s) : SettlementInv s' := by
  obtain ⟨hnd, hcount, hback⟩ := hinv
  cases h with
  | ingest i hfresh =>
    refine ⟨?_, ?_, ?_⟩
    · simp only [List.map_append, List.map_cons, List.map_nil]
      refine List.Nodup.append hnd (List.nodup_singleton i) ?_
      intro a ha hb
      simp only [List.mem_singleton] at hb
      subst hb
      obtain ⟨t, ht, rfl⟩ := List.mem_map.mp ha
      exact hfresh t ht rfl
    · intro t ht
      rcases List.mem_append.mp ht with hold | hnew
      · exact hcount t hold
      · simp only [List.mem_singleton] at hnew
        subst hnew
        simp only [if_neg (by simp : ¬ (TxStatus.Pending = TxStatus.Settled))]
        rw [List.countP_eq_zero]
        intro b hb hib
        have : CoreTx.mk i .Settled ∈ s.txs := by
          apply hback b hb
          simpa [inBatch] using hib
        exact hfresh _ this rfl
    · intro b hb i hib
      exact List.mem_append.mpr (.inl (hback b hb i hib))
  | settle settledIds failedIds bid hS hF hdisj =>
    have hndmap : ((s.txs.map (applyOutcome settledIds failedIds)).map CoreTx.id).Nodup := by
      rw [List.map_map]
      have : CoreTx.id ∘ applyOutcome settledIds failedIds = CoreTx.id := by
        funext t
        exact applyOutcome_id settledIds failedIds t
      rw [this]
      exact hnd
    have hSnot : ∀ i ∈ settledIds, ∀ st, CoreTx.mk i st ∈ s.txs → st = .Pending := by
      intro i hi st hst
      exact status_unique hnd hst (hS i hi)
    have hFnot : ∀ i ∈ failedIds, ∀ st, CoreTx.mk i st ∈ s.txs → st = .Pending := by
      intro i hi st hst
      exact status_unique hnd hst (hF i hi)
    refine ⟨hndmap, ?_, ?_⟩
    · intro t' ht'
      simp only at ht'
      obtain ⟨t, ht, rfl⟩ := List.mem_map.mp ht'
      by_cases hiS : t.id ∈ settledIds
      · have hpend : t.status = .Pending := hSnot t.id hiS t.status ht
        have hcnt0 : s.batches.countP (inBatch t.id) = 0 := by
          have hc := hcount t ht
          rw [hpend] at hc
          simpa using hc
        have hemp : settledIds.isEmpty = false := by
          cases settledIds with
          | nil => cases hiS
          | cons a l => rfl
        simp [applyOutcome, hiS, hemp, List.countP_append, List.countP_cons,
          inBatch, hcnt0]
      · by_cases hiF : t.id ∈ failedIds
        · have hpend : t.status = .Pending := hFnot t.id hiF t.status ht
          have hcnt0 : s.batches.countP (inBatch t.id) = 0 := by
            have hc := hcount t ht
            rw [hpend] at hc
            simpa using hc
          cases hemp : settledIds.isEmpty <;>
            simp [applyOutcome, hiS, hiF, hemp, List.countP_append,
              List.countP_cons, inBatch, hcnt0]
        · cases hemp : settledIds.isEmpty <;>
            simp [applyOutcome, hiS, hiF, hemp, List.countP_append,
              List.countP_cons, inBatch, hcount t ht]
    · intro b hb i hib
      have hbatches : b ∈ s.batches ∨ (¬ settledIds.isEmpty ∧ b = ⟨bid, settledIds⟩) := by
        cases hemp : settledIds.isEmpty
        · rw [hemp] at hb
          simp only [Bool.false_eq_true, if_false, List.mem_append,
            List.mem_singleton] at hb
          rcases hb with h1 | h2
          · exact .inl h1
          · exact .inr ⟨by simp [hemp], h2⟩
        · rw [hemp] at hb
          simp only [if_pos rfl] at hb
          exact .inl hb
      rcases hbatches with hold | ⟨_, rfl⟩
      · have hmem : CoreTx.mk i .Settled ∈ s.txs := hback b hold i hib
        have hiS : i ∉ settledIds := by
          intro hc
          have := hSnot i hc .Settled hmem
          cases this
        have hiF : i ∉ failedIds := by
          intro hc
          have := hFnot i hc .Settled hmem
          cases this
        refine List.mem_map.mpr ⟨⟨i, .Settled⟩, hmem, ?_⟩
        simp [applyOutcome, hiS, hiF]
      · have hmem : CoreTx.mk i .Pending ∈ s.txs := hS i hib
        refine List.mem_map.mpr ⟨⟨i, .Pending⟩, hmem, ?_⟩
        simp [applyOutcome, hib]

/-- Every reachable state satisfies the settlement invariant. -/
lemma settlementInv_reachable {s : CoreState} (h : ReachableState s) :
    SettlementInv s := by
  induction h with
  | refl => exact settlementInv_init
  | tail _ hstep ih => exact settlementInv_step hstep ih

/-! ### Validation lemmas -/

/-- The rational value of a parsed decimal. -/
def BigDec.toRat (d : BigDec) : ℚ :=
  (d.mantissa : ℚ) * (10 : ℚ) ^ (-d.scale)

lemma BigDec.toRat_nonpos_iff (d : BigDec) : d.toRat ≤ 0 ↔ d.mantissa ≤ 0 := by
  have hpow : (0 : ℚ) < (10 : ℚ) ^ (-d.scale) := by positivity
  unfold BigDec.toRat
  constructor
  · intro h
    by_contra hc
    push_neg at hc
    have hm : (0 : ℚ) < (d.mantissa : ℚ) := by exact_mod_cast hc
    nlinarith
  · intro h
    have hm : (d.mantissa : ℚ) ≤ 0 := by exact_mod_cast h
    nlinarith

lemma validate_payload_none {p : CallbackPayload}
    (hparse : parseBigDecimal p.amount_in = none) :
    validate_payload p = .error (.Validation "Invalid amount format") := by
  unfold validate_payload
  rw [hparse]

lemma validate_payload_some {p : CallbackPayload} {a : BigDec}
    (hparse : parseBigDecimal p.amount_in = some a) :
    validate_payload p =
      (if a.mantissa ≤ 0 then
        .error (.Validation "Amount must be greater than 0")
      else if byteLen p.stellar_account ≠ 56 then
        .error (.Validation "Invalid Stellar account address length, must be 56 characters")
      else if ¬ startsWithG p.stellar_account then
        .error (.Validation "Stellar account must start with G")
      else if p.asset_code = "" ∨ byteLen p.asset_code > 12 then
        .error (.Validation "Asset code must be between 1 and 12 characters")
      else
        .ok ()) := by
  unfold validate_payload
  rw [hparse]

/-- `validate_payload` succeeds exactly when every business rule holds:
positive parsed amount, 56-byte account starting with `G`, asset code of
1 to 12 bytes. -/
lemma validate_ok_iff (p : CallbackPayload) :
    validate_payload p = .ok () ↔
      ∃ a, parseBigDecimal p.amount_in = some a ∧ 0 < a.mantissa ∧
        byteLen p.stellar_account = 56 ∧ startsWithG p.stellar_account = true ∧
        p.asset_code ≠ "" ∧ byteLen p.asset_code ≤ 12 := by
  cases hparse : parseBigDecimal p.amount_in with
  | none => simp [validate_payload_none hparse, hparse]
  | some a =>
    rw [validate_payload_some hparse]
    constructor
    · intro h
      split_ifs at h with h1 h2 h3 h4
      push_neg at h1 h2
      rcases not_or.mp h4 with ⟨hne, hle⟩
      exact ⟨a, rfl, by omega, h2, by simpa using h3, hne, by omega⟩
    · rintro ⟨a', ha', hpos, h56, hG, hne, h12⟩
      obtain rfl : a = a' := by injection ha'
      rw [if_neg (by omega), if_neg (by simp [h56]), if_neg (by simp [hG]),
        if_neg (by push_neg; exact ⟨hne, by omega⟩)]

/-- Every failure of `validate_payload` is a `Validation` error. -/
lemma validate_error_is_validation (p : CallbackPayload)
    (h : validate_payload p ≠ .ok ()) :
    ∃ msg, validate_payload p = .error (.Validation msg) := by
  cases hparse : parseBigDecimal p.amount_in with
  | none => exact ⟨"Invalid amount format", validate_payload_none hparse⟩
  | some a =>
    rw [validate_payload_some hparse] at h ⊢
    by_cases h1 : a.mantissa ≤ 0
    · exact ⟨_, by rw [if_pos h1]⟩
    rw [if_neg h1] at h ⊢
    by_cases h2 : byteLen p.stellar_account ≠ 56
    · exact ⟨_, by rw [if_pos h2]⟩
    rw [if_neg h2] at h ⊢
    by_cases h3 : ¬ startsWithG p.stellar_account
    · exact ⟨_, by rw [if_pos h3]⟩
    rw [if_neg h3] at h ⊢
    by_cases h4 : p.asset_code = "" ∨ byteLen p.asset_code > 12
    · exact ⟨_, by rw [if_pos h4]⟩
    rw [if_neg h4] at h
    exact absurd rfl h

/-- A validation failure short-circuits `handle_callback`: the error is
returned and the store is untouched. -/
lemma handle_callback_of_validate_error {p : CallbackPayload} {e : AppError}
    (h : validate_payload p = .error e) (st : Store) (now freshId : Nat) :
    handle_callback st now freshId p = (st, .error e) := by
  unfold handle_callback
  rw [h]

/-- When validation passes, `handle_callback` builds the new transaction
and delegates to the insert. -/
lemma handle_callback_of_validate_ok {p : CallbackPayload}
    (hok : validate_payload p = .ok ()) {a : BigDec}
    (ha : parseBigDecimal p.amount_in = some a) (st : Store) (now freshId : Nat) :
    handle_callback st now freshId p =
      match insertTransaction st (Transaction.new freshId now p.stellar_account
          a p.asset_code (some p.id) p.callback_type p.status) with
      | .error e => (st, .error e)
      | .ok (rid, st2) => (st2, .ok (201, ⟨rid, "pending"⟩)) := by
  unfold handle_callback
  rw [hok, ha]

/-- Every failure of `insertTransaction` is a `Database` error. -/
lemma insertTransaction_error_is_database {st : Store} {t : StoredTransaction}
    {e : AppError} (h : insertTransaction st t = .error e) :
    ∃ msg, e = .Database msg := by
  unfold insertTransaction at h
  cases han : t.anchor_transaction_id with
  | none =>
    simp only [han] at h
    cases h
  | some a =>
    simp only [han] at h
    split_ifs at h with hs
    exact ⟨_, by injection h with h1; exact h1.symm⟩

/-- Inserting a transaction whose anchor id is absent from the store
succeeds and appends the row. -/
lemma insertTransaction_fresh {st : Store} {t : StoredTransaction} {a : String}
    (han : t.anchor_transaction_id = some a)
    (hfresh : ∀ r ∈ st, r.anchor_transaction_id ≠ some a) :
    insertTransaction st t = .ok (t.id, st ++ [t]) := by
  unfold insertTransaction
  simp only [han]
  rw [if_neg]
  intro hc
  rw [List.any_eq_true] at hc
  obtain ⟨r, hr, hrt⟩ := hc
  exact hfresh r hr (by simpa [hasAnchorId] using hrt)

lemma one_le_charUtf8Size (c : Char) : 1 ≤ charUtf8Size c := by
  unfold charUtf8Size
  split_ifs <;> norm_num

lemma byteLen_eq_zero_iff (s : String) : byteLen s = 0 ↔ s = "" := by
  constructor
  · intro h
    have hd : s.data = [] := by
      cases hsd : s.data with
      | nil => rfl
      | cons c cs =>
        unfold byteLen at h
        rw [hsd] at h
        simp only [List.map_cons, List.sum_cons] at h
        have := one_le_charUtf8Size c
        omega
    exact String.ext (by simp [hd])
  · intro h
    subst h
    rfl

/-! ### Ingestion claims -/

/-- The well-formed demonstration account: `G` followed by 55 `A`s. -/
def demoAccount : String :=
  "GAAAAAAAAAAAAAAAAAAAAAAAAAAAAAAAAAAAAAAAAAAAAAAAAAAAAAAA"

/-- 55 characters, but 56 UTF-8 bytes: `é` occupies two bytes. -/
def multibyteAccount : String :=
  "GéAAAAAAAAAAAAAAAAAAAAAAAAAAAAAAAAAAAAAAAAAAAAAAAAAAAAA"

/-- 7 characters, but 14 UTF-8 bytes: each `Ā` occupies two bytes. -/
def wideAsset : String := "ĀĀĀĀĀĀĀ"

/-- The valid demonstration payload from the spec's scenario. -/
def demoPayload : CallbackPayload :=
  ⟨"cb-1", "10.50", demoAccount, "USDC", none, none⟩

/-- C1: the claim says a second `handle_callback` for an already-stored
external id returns the existing record's identifier and status as a
success without inserting.  The code instead attempts an unconditional
INSERT; with the storage-level uniqueness of `anchor_transaction_id`, the
replay surfaces the constraint violation as `AppError::Database` (a 5xx),
not a success carrying the existing id.  The first call succeeds with
`201 pending`; the replay leaves the store unchanged and errors. -/
theorem C1_duplicate_replay_surfaces_database_error :
    (handle_callback [] 0 1 demoPayload).2 =
      .ok (201, ⟨1, "pending"⟩) ∧
    (handle_callback (handle_callback [] 0 1 demoPayload).1 1 2 demoPayload).2 =
      .error (.Database
        "duplicate key value violates unique constraint on anchor_transaction_id") ∧
    (handle_callback (handle_callback [] 0 1 demoPayload).1 1 2 demoPayload).1 =
      (handle_callback [] 0 1 demoPayload).1 :=
  ⟨rfl, rfl, rfl⟩

/-- C2: the claim says the router registers `POST /callback/transaction`
and `GET /transactions/{id}`.  The router built in `src/main.rs` registers
only `/health`, `GET /admin/flags` and `PUT /admin/flags/:name`; neither
path named by the external-interface section is present. -/
theorem C2_callback_routes_not_registered :
    "/callback/transaction" ∉ appRoutes.map (fun r => r.2.1) ∧
    "/transactions/:id" ∉ appRoutes.map (fun r => r.2.1) ∧
    appRoutes.map (fun r => r.2.1) =
      ["/health", "/admin/flags", "/admin/flags/:name"] := by
  refine ⟨?_, ?_, rfl⟩ <;> decide

/-- C4: a payload whose `amount_in` does not parse as a decimal, or parses
to a value at most zero, makes `handle_callback` return a `Validation`
error with the store untouched — the insert is never reached. -/
theorem C4_invalid_amount_rejected_without_insert :
    ∀ (st : Store) (now freshId : Nat) (p : CallbackPayload),
      (parseBigDecimal p.amount_in = none ∨
        ∃ a, parseBigDecimal p.amount_in = some a ∧ a.toRat ≤ 0) →
      ∃ msg, handle_callback st now freshId p = (st, .error (.Validation msg)) := by
  intro st now freshId p h
  rcases h with hnone | ⟨a, ha, hle⟩
  · exact ⟨_, handle_callback_of_validate_error (validate_payload_none hnone)
      st now freshId⟩
  · have hman : a.mantissa ≤ 0 := (BigDec.toRat_nonpos_iff a).mp hle
    have hval : validate_payload p =
        .error (.Validation "Amount must be greater than 0") := by
      rw [validate_payload_some ha, if_pos hman]
    exact ⟨_, handle_callback_of_validate_error hval st now freshId⟩

/-- Witness for C4 at the concrete payload with amount `-5`. -/
theorem C4_witness :
    ∃ msg, handle_callback [] 0 1 ⟨"cb-neg", "-5", demoAccount, "USDC", none, none⟩ =
      ([], .error (.Validation msg)) :=
  C4_invalid_amount_rejected_without_insert [] 0 1 _
    (Or.inr ⟨⟨-5, 0⟩, rfl, by norm_num [BigDec.toRat]⟩)

/-- C5 counterexample: a `stellar_account` of 55 characters whose UTF-8
encoding is 56 bytes is accepted by `validate_payload` and ingested with
`201`, refuting both directions of the claim as stated in characters
(`len()` counts bytes, not characters). -/
theorem C5_counterexample_multibyte_account :
    validate_payload ⟨"cb-mb", "1", multibyteAccount, "USDC", none, none⟩ =
      .ok () ∧
    multibyteAccount.length = 55 ∧
    (handle_callback [] 0 1 ⟨"cb-mb", "1", multibyteAccount, "USDC", none, none⟩).2 =
      .ok (201, ⟨1, "pending"⟩) :=
  ⟨rfl, by decide, rfl⟩

/-- C5 (amended to UTF-8 bytes): a payload whose `stellar_account` is not
exactly 56 UTF-8 bytes or does not start with `G` fails with a
`Validation` error and an unchanged store; every accepted payload has a
56-byte account starting with `G`. -/
theorem C5_account_byte_length_check :
    ∀ p : CallbackPayload,
      ((byteLen p.stellar_account ≠ 56 ∨ startsWithG p.stellar_account = false) →
        ∀ (st : Store) (now freshId : Nat),
          ∃ msg, handle_callback st now freshId p = (st, .error (.Validation msg))) ∧
      (validate_payload p = .ok () →
        byteLen p.stellar_account = 56 ∧ startsWithG p.stellar_account = true) := by
  intro p
  constructor
  · intro hbad st now freshId
    have hne : validate_payload p ≠ .ok () := by
      intro hok
      obtain ⟨a, ha, hpos, h56, hG, _, _⟩ := (validate_ok_iff p).mp hok
      rcases hbad with hb | hb
      · exact hb h56
      · rw [hG] at hb
        cases hb
    obtain ⟨msg, hmsg⟩ := validate_error_is_validation p hne
    exact ⟨msg, handle_callback_of_validate_error hmsg st now freshId⟩
  · intro hok
    obtain ⟨a, ha, hpos, h56, hG, _, _⟩ := (validate_ok_iff p).mp hok
    exact ⟨h56, hG⟩

/-- Witness for C5 at a 3-byte account and at the valid demo payload. -/
theorem C5_witness :
    (∃ msg, handle_callback [] 0 1 ⟨"cb-short", "1", "GAB", "USDC", none, none⟩ =
      ([], .error (.Validation msg))) ∧
    byteLen demoAccount = 56 ∧ startsWithG demoAccount = true :=
  ⟨(C5_account_byte_length_check ⟨"cb-short", "1", "GAB", "USDC", none, none⟩).1
      (Or.inl (by decide)) [] 0 1,
   (C5_account_byte_length_check demoPayload).2 rfl⟩

/-- C6 counterexample: an `asset_code` of 7 characters whose UTF-8
encoding is 14 bytes is rejected, refuting the claim that payloads with
asset codes of 1 to 12 characters pass the check (`len()` counts bytes). -/
theorem C6_counterexample_multibyte_asset :
    (handle_callback [] 0 1 ⟨"cb-wide", "1", demoAccount, wideAsset, none, none⟩).2 =
      .error (.Validation "Asset code must be between 1 and 12 characters") ∧
    wideAsset.length = 7 :=
  ⟨rfl, by decide⟩

/-- C6 (amended to UTF-8 bytes): for payloads passing the amount and
account checks, `handle_callback` returns a `Validation` error exactly
when the asset code's UTF-8 byte length lies outside `[1, 12]`. -/
theorem C6_asset_code_byte_range_check :
    ∀ (st : Store) (now freshId : Nat) (p : CallbackPayload) (a : BigDec),
      parseBigDecimal p.amount_in = some a → 0 < a.mantissa →
      byteLen p.stellar_account = 56 → startsWithG p.stellar_account = true →
      ((∃ msg, (handle_callback st now freshId p).2 = .error (.Validation msg)) ↔
        (byteLen p.asset_code < 1 ∨ 12 < byteLen p.asset_code)) := by
  intro st now freshId p a ha hpos h56 hG
  constructor
  · rintro ⟨msg, hmsg⟩
    by_contra hrange
    push_neg at hrange
    obtain ⟨h1, h12⟩ := hrange
    have hne : p.asset_code ≠ "" := by
      intro hc
      rw [hc] at h1
      exact absurd h1 (by decide)
    have hok : validate_payload p = .ok () :=
      (validate_ok_iff p).mpr ⟨a, ha, hpos, h56, hG, hne, h12⟩
    rw [handle_callback_of_validate_ok hok ha st now freshId] at hmsg
    cases hins : insertTransaction st (Transaction.new freshId now
        p.stellar_account a p.asset_code (some p.id) p.callback_type p.status) with
    | error e =>
      rw [hins] at hmsg
      simp only at hmsg
      obtain ⟨m, rfl⟩ := insertTransaction_error_is_database hins
      exact absurd hmsg (by simp)
    | ok r =>
      rw [hins] at hmsg
      cases hmsg
  · intro hrange
    have hfail : validate_payload p =
        .error (.Validation "Asset code must be between 1 and 12 characters") := by
      rw [validate_payload_some ha, if_neg (by omega), if_neg (by simp [h56]),
        if_neg (by simp [hG])]
      rw [if_pos]
      rcases hrange with hlt | hgt
      · exact Or.inl ((byteLen_eq_zero_iff _).mp (by omega))
      · exact Or.inr hgt
    refine ⟨"Asset code must be between 1 and 12 characters", ?_⟩
    rw [handle_callback_of_validate_error hfail st now freshId]

/-- Witness for C6 at a 13-byte ASCII asset code. -/
theorem C6_witness :
    ∃ msg, (handle_callback [] 0 1
      ⟨"cb-long", "1", demoAccount, "ABCDEFGHIJKLM", none, none⟩).2 =
        .error (.Validation msg) :=
  (C6_asset_code_byte_range_check [] 0 1
      ⟨"cb-long", "1", demoAccount, "ABCDEFGHIJKLM", none, none⟩ ⟨1, 0⟩
      rfl (by norm_num) (by decide) rfl).mpr (Or.inr (by decide))

/-- C7: a valid payload whose external id is absent from the store is
persisted via `Transaction::new` with status `pending`, and the response
is `201` with the fresh id and status `pending`, whatever optional status
the payload carried. -/
theorem C7_fresh_external_id_creates_pending :
    ∀ (st : Store) (now freshId : Nat) (p : CallbackPayload),
      validate_payload p = .ok () →
      (∀ r ∈ st, r.anchor_transaction_id ≠ some p.id) →
      ∃ a, parseBigDecimal p.amount_in = some a ∧
        handle_callback st now freshId p =
          (st ++ [Transaction.new freshId now p.stellar_account a
            p.asset_code (some p.id) p.callback_type p.status],
           .ok (201, ⟨freshId, "pending"⟩)) ∧
        (Transaction.new freshId now p.stellar_account a p.asset_code
          (some p.id) p.callback_type p.status).status = "pending" := by
  intro st now freshId p hok hfresh
  obtain ⟨a, ha, -⟩ := (validate_ok_iff p).mp hok
  refine ⟨a, ha, ?_, rfl⟩
  rw [handle_callback_of_validate_ok hok ha st now freshId,
    insertTransaction_fresh rfl hfresh]
  rfl

/-- Witness for C7 at the demo payload over the empty store. -/
theorem C7_witness :
    ∃ a, parseBigDecimal demoPayload.amount_in = some a ∧
      handle_callback [] 0 1 demoPayload =
        ([] ++ [Transaction.new 1 0 demoPayload.stellar_account a
          demoPayload.asset_code (some demoPayload.id)
          demoPayload.callback_type demoPayload.status],
         .ok (201, ⟨1, "pending"⟩)) ∧
      (Transaction.new 1 0 demoPayload.stellar_account a
        demoPayload.asset_code (some demoPayload.id)
        demoPayload.callback_type demoPayload.status).status = "pending" :=
  C7_fresh_external_id_creates_pending [] 0 1 demoPayload rfl
    (fun r hr => absurd hr (List.not_mem_nil r))

/-- C9: the legacy `handle_webhook` returns `200` with `success = true`
and a message echoing the payload id, and leaves the store exactly as it
was — no lookup of `anchor_transaction_id`, no write of any kind. -/
theorem C9_legacy_webhook_pure_response :
    ∀ (st : Store) (p : WebhookPayload),
      handle_webhook st p =
        (st, 200, ⟨true, "Webhook " ++ p.id ++ " processed successfully"⟩) :=
  fun _ _ => rfl

/-- C3: in every externally observable (reachable) state, a transaction is
`Settled` exactly when exactly one SettlementBatch references its id, and
every id referenced by a batch belongs to a `Settled` — hence never still
`Pending` — transaction.  Batch creation and the included status updates
are a single atomic step of the model, so no intermediate state exists. -/
theorem C3_settled_iff_exactly_one_batch :
    ∀ s : CoreState, ReachableState s →
      (∀ t ∈ s.txs,
        (t.status = .Settled ↔ s.batches.countP (inBatch t.id) = 1)) ∧
      (∀ b ∈ s.batches, ∀ i ∈ b.transaction_ids,
        CoreTx.mk i .Settled ∈ s.txs ∧ CoreTx.mk i .Pending ∉ s.txs) := by
  intro s hs
  obtain ⟨hnd, hcount, hback⟩ := settlementInv_reachable hs
  constructor
  · intro t ht
    constructor
    · intro hst
      rw [hcount t ht, if_pos hst]
    · intro hc
      by_contra hne
      rw [hcount t ht, if_neg hne] at hc
      cases hc
  · intro b hb i hib
    refine ⟨hback b hb i hib, ?_⟩
    intro hpend
    cases status_unique hnd (hback b hb i hib) hpend

/-- The two-step demonstration state: one ingested transaction, settled by
one tick into one batch. -/
def settledDemoState : CoreState := ⟨[⟨1, .Settled⟩], [⟨0, [1]⟩]⟩

lemma settledDemoState_reachable : ReachableState settledDemoState := by
  have h1 : CoreStep initState ⟨[⟨1, .Pending⟩], []⟩ :=
    CoreStep.ingest initState 1 (by intro t ht; cases ht)
  have h2 : CoreStep ⟨[⟨1, .Pending⟩], []⟩ settledDemoState := by
    have h := CoreStep.settle ⟨[⟨1, .Pending⟩], []⟩ [1] [] 0
      (by intro i hi; simp only [List.mem_singleton] at hi; subst hi; simp)
      (by intro i hi; cases hi)
      (by intro i hi; simp)
    have heq : (⟨List.map (applyOutcome [1] []) [⟨1, .Pending⟩],
        if ([1] : List Nat).isEmpty then ([] : List SettlementBatch)
        else [] ++ [⟨0, [1]⟩]⟩ : CoreState) = settledDemoState := by
      decide
    exact heq ▸ h
  exact Relation.ReflTransGen.tail
    (Relation.ReflTransGen.tail Relation.ReflTransGen.refl h1) h2

/-- Witness for C3: in the demonstration state, the settled transaction is
referenced by exactly one batch, and the batch's referenced id is settled
and not pending. -/
theorem C3_witness :
    settledDemoState.batches.countP (inBatch 1) = 1 ∧
    CoreTx.mk 1 .Settled ∈ settledDemoState.txs ∧
    CoreTx.mk 1 .Pending ∉ settledDemoState.txs :=
  ⟨((C3_settled_iff_exactly_one_batch settledDemoState
      settledDemoState_reachable).1 ⟨1, .Settled⟩ (by simp [settledDemoState])).mp
      rfl,
   (C3_settled_iff_exactly_one_batch settledDemoState
      settledDemoState_reachable).2 ⟨0, [1]⟩ (by simp [settledDemoState]) 1
      (by simp)⟩

/-! ### Configuration claims -/

/-- A successful `Config::from_env` certifies every input it consumed:
the three required variables are present, and whichever of the optional
variables were set parsed successfully. -/
lemma from_env_ok_sound {env : Env} {c : Config}
    (h : Config.from_env env = .ok c) :
    (∃ v, env "DATABASE_URL" = some v) ∧
    (∃ v, env "STELLAR_HORIZON_URL" = some v) ∧
    (∃ v, env "REDIS_URL" = some v) ∧
    (∀ v, env "SERVER_PORT" = some v → ∃ n, parseU16 v = some n) ∧
    (∀ v, env "ALLOWED_IPS" = some v → ∃ a, parse_allowed_ips v = .ok a) ∧
    (∀ v, env "LOG_FORMAT" = some v → ∃ f, parse_log_format v = .ok f) := by
  unfold Config.from_env at h
  cases hA : parse_allowed_ips (envOr env "ALLOWED_IPS" "*") with
  | error e => simp only [hA] at h; exact Except.noConfusion h
  | ok al =>
  simp only [hA] at h
  cases hL : parse_log_format (envOr env "LOG_FORMAT" "text") with
  | error e => simp only [hL] at h; exact Except.noConfusion h
  | ok lf =>
  simp only [hL] at h
  cases hP : parseU16 (envOr env "SERVER_PORT" "3000") with
  | none => simp only [hP] at h; exact Except.noConfusion h
  | some port =>
  simp only [hP] at h
  cases hD : env "DATABASE_URL" with
  | none => simp only [envReq, hD] at h; exact Except.noConfusion h
  | some d =>
  simp only [envReq, hD] at h
  cases hS : env "STELLAR_HORIZON_URL" with
  | none => simp only [envReq, hS] at h; exact Except.noConfusion h
  | some sh =>
  simp only [envReq, hS] at h
  cases hR : env "REDIS_URL" with
  | none => simp only [envReq, hR] at h; exact Except.noConfusion h
  | some r =>
  refine ⟨⟨d, rfl⟩, ⟨sh, rfl⟩, ⟨r, rfl⟩, ?_, ?_, ?_⟩
  · intro v hv
    refine ⟨port, ?_⟩
    rw [show envOr env "SERVER_PORT" "3000" = v from by simp [envOr, hv]] at hP
    exact hP
  · intro v hv
    refine ⟨al, ?_⟩
    rw [show envOr env "ALLOWED_IPS" "*" = v from by simp [envOr, hv]] at hA
    exact hA
  · intro v hv
    refine ⟨lf, ?_⟩
    rw [show envOr env "LOG_FORMAT" "text" = v from by simp [envOr, hv]] at hL
    exact hL

/-- C8: a missing required variable or an invalid optional one makes
`Config::from_env` return an error, and `main` then produces no startup
event at all — in particular it never binds the listener or serves. -/
theorem C8_invalid_config_aborts_startup :
    ∀ (env : Env) (poolOk migOk flagsOk bindOk : Bool),
      (env "DATABASE_URL" = none ∨ env "STELLAR_HORIZON_URL" = none ∨
       env "REDIS_URL" = none ∨
       (∃ v, env "SERVER_PORT" = some v ∧ parseU16 v = none) ∨
       (∃ v, env "ALLOWED_IPS" = some v ∧ ∃ e, parse_allowed_ips v = .error e) ∨
       (∃ v, env "LOG_FORMAT" = some v ∧ ∃ e, parse_log_format v = .error e)) →
      (∃ e, Config.from_env env = .error e) ∧
      mainStartup env poolOk migOk flagsOk bindOk = [] := by
  intro env poolOk migOk flagsOk bindOk hbad
  have herr : ∃ e, Config.from_env env = .error e := by
    cases hres : Config.from_env env with
    | error e => exact ⟨e, rfl⟩
    | ok c =>
      exfalso
      obtain ⟨⟨d, hD⟩, ⟨sh, hS⟩, ⟨r, hR⟩, hport, hips, hlog⟩ := from_env_ok_sound hres
      rcases hbad with h | h | h | ⟨v, hv, hn⟩ | ⟨v, hv, e, he⟩ | ⟨v, hv, e, he⟩
      · rw [h] at hD
        cases hD
      · rw [h] at hS
        cases hS
      · rw [h] at hR
        cases hR
      · obtain ⟨n, hn'⟩ := hport v hv
        rw [hn] at hn'
        cases hn'
      · obtain ⟨a, ha⟩ := hips v hv
        rw [he] at ha
        cases ha
      · obtain ⟨f, hf⟩ := hlog v hv
        rw [he] at hf
        cases hf
  obtain ⟨e, he⟩ := herr
  refine ⟨⟨e, he⟩, ?_⟩
  unfold mainStartup
  rw [he]

/-- Witness for C8: with an empty environment `DATABASE_URL` is unset, so
startup aborts with no event. -/
theorem C8_witness :
    (∃ e, Config.from_env (fun _ => none) = .error e) ∧
    mainStartup (fun _ => none) true true true true = [] :=
  C8_invalid_config_aborts_startup (fun _ => none) true true true true (Or.inl rfl)

lemma mem_of_dropWhile {α : Type} {p : α → Bool} {x : α} :
    ∀ {l : List α}, x ∈ l.dropWhile p → x ∈ l := by
  intro l
  induction l with
  | nil => intro h; exact h
  | cons a rest ih =>
    intro h
    rw [List.dropWhile_cons] at h
    split at h
    · exact List.mem_cons_of_mem a (ih h)
    · exact h

lemma mem_of_trimChars {c : Char} {cs : List Char} (h : c ∈ trimChars cs) :
    c ∈ cs := by
  unfold trimChars at h
  rw [List.mem_reverse] at h
  have h1 := mem_of_dropWhile h
  rw [List.mem_reverse] at h1
  exact mem_of_dropWhile h1

lemma trimChars_of_all_whitespace {cs : List Char}
    (h : ∀ c ∈ cs, c.isWhitespace) : trimChars cs = [] := by
  unfold trimChars
  rw [List.dropWhile_eq_nil_iff.mpr h]
  rfl

lemma splitSep_ne_nil (sep : Char) (cs : List Char) : splitSep sep cs ≠ [] := by
  cases cs with
  | nil => exact fun h => List.noConfusion h
  | cons c rest =>
    unfold splitSep
    split_ifs
    · exact fun h => List.noConfusion h
    · cases splitSep sep rest <;> exact fun h => List.noConfusion h

/-- Every character of a separator-split group comes from the input and is
not the separator. -/
lemma splitSep_mem {sep : Char} {cs g : List Char} {c : Char}
    (hg : g ∈ splitSep sep cs) (hc : c ∈ g) : c ∈ cs ∧ c ≠ sep := by
  induction cs generalizing g with
  | nil =>
    unfold splitSep at hg
    rw [List.mem_singleton] at hg
    subst hg
    cases hc
  | cons a rest ih =>
    unfold splitSep at hg
    by_cases ha : a = sep
    · rw [if_pos ha] at hg
      rcases List.mem_cons.mp hg with hgn | hgr
      · subst hgn
        cases hc
      · obtain ⟨h1, h2⟩ := ih hgr hc
        exact ⟨List.mem_cons_of_mem a h1, h2⟩
    · rw [if_neg ha] at hg
      cases hsc : splitSep sep rest with
      | nil => exact absurd hsc (splitSep_ne_nil sep rest)
      | cons g0 gs =>
        rw [hsc] at hg
        rcases List.mem_cons.mp hg with hgn | hgr
        · subst hgn
          rcases List.mem_cons.mp hc with hca | hcg
          · subst hca
            exact ⟨List.mem_cons_self _ _, ha⟩
          · obtain ⟨h1, h2⟩ := ih (hsc ▸ List.mem_cons_self g0 gs) hcg
            exact ⟨List.mem_cons_of_mem a h1, h2⟩
        · obtain ⟨h1, h2⟩ := ih (hsc ▸ List.mem_cons_of_mem g0 hgr) hc
          exact ⟨List.mem_cons_of_mem a h1, h2⟩

/-- C10: `parse_allowed_ips` yields `Any` exactly for a trimmed `*`; any
other success is a nonempty CIDR list; and an input made of nothing but
commas and whitespace is rejected. -/
theorem C10_allowed_ips_never_empty :
    ∀ s : String,
      (parse_allowed_ips s = .ok .Any ↔ rustTrim s = "*") ∧
      (∀ l, parse_allowed_ips s = .ok (.Cidrs l) → l ≠ []) ∧
      ((∀ c ∈ s.data, c = ',' ∨ c.isWhitespace) →
        ∃ e, parse_allowed_ips s = .error e) := by
  intro s
  refine ⟨⟨?_, ?_⟩, ?_, ?_⟩
  · intro h
    unfold parse_allowed_ips at h
    by_cases hstar : rustTrim s = "*"
    · exact hstar
    · rw [if_neg hstar] at h
      cases hm : (((splitSep ',' (rustTrim s).data).map trimChars).filter
          (fun e => ¬ e.isEmpty)).mapM (fun e => ipNetFromStr ⟨e⟩) with
      | none =>
        rw [hm] at h
        cases h
      | some cidrs =>
        rw [hm] at h
        simp only at h
        split_ifs at h
        injection h with h1
        cases h1
  · intro h
    unfold parse_allowed_ips
    rw [if_pos h]
  · intro l h
    unfold parse_allowed_ips at h
    by_cases hstar : rustTrim s = "*"
    · rw [if_pos hstar] at h
      injection h with h1
      cases h1
    · rw [if_neg hstar] at h
      cases hm : (((splitSep ',' (rustTrim s).data).map trimChars).filter
          (fun e => ¬ e.isEmpty)).mapM (fun e => ipNetFromStr ⟨e⟩) with
      | none =>
        rw [hm] at h
        cases h
      | some cidrs =>
        rw [hm] at h
        simp only at h
        split_ifs at h with hemp
        injection h with h1
        injection h1 with h2
        subst h2
        intro hnil
        subst hnil
        exact hemp rfl
  · intro hws
    have hstar : rustTrim s ≠ "*" := by
      intro hc
      have hdata : trimChars s.data = ['*'] := congrArg String.data hc
      have hmem : '*' ∈ trimChars s.data := by
        rw [hdata]
        exact List.mem_singleton.mpr rfl
      rcases hws '*' (mem_of_trimChars hmem) with h | h
      · cases h
      · cases h
    have hentries : ((splitSep ',' (rustTrim s).data).map trimChars).filter
        (fun e => ¬ e.isEmpty) = [] := by
      rw [List.filter_eq_nil_iff]
      intro g hg
      obtain ⟨g0, hg0, rfl⟩ := List.mem_map.mp hg
      have hgws : ∀ c ∈ g0, c.isWhitespace := by
        intro c hcg
        obtain ⟨hmem, hne⟩ := splitSep_mem hg0 hcg
        have hcs : c ∈ s.data := mem_of_trimChars hmem
        rcases hws c hcs with h | h
        · exact absurd h hne
        · exact h
      rw [trimChars_of_all_whitespace hgws]
      simp
    refine ⟨"ALLOWED_IPS must be a star or a comma-separated list of CIDRs", ?_⟩
    unfold parse_allowed_ips
    rw [if_neg hstar]
    rw [hentries]
    rfl

/-- Witness for C10: `" * "` parses to `Any`, a single CIDR parses to a
nonempty list, and `" , ,"` is rejected. -/
theorem C10_witness :
    parse_allowed_ips " * " = .ok .Any ∧
    (([⟨[10, 0, 0, 0], 8⟩] : List IpNet) ≠ []) ∧
    (∃ e, parse_allowed_ips " , ," = .error e) :=
  ⟨(C10_allowed_ips_never_empty " * ").1.mpr (by decide),
   (C10_allowed_ips_never_empty "10.0.0.0/8").2.1 [⟨[10, 0, 0, 0], 8⟩] rfl,
   (C10_allowed_ips_never_empty " , ,").2.2 (by decide)⟩

end SynapseCore
